import Mathlib

/-!
Shallow embedding of the fitness-dashboard data pipeline
(`src/workflows/collect_data.py` and `src/fitness-dashboard/connectors/concept2.py`).

Raw records from the three sources (Intervals.icu, Strava, Concept2) are modelled
as structures of optional fields; a missing JSON key and a JSON `null` are both
`none`.  String-valued ids are kept as strings (an integer id is represented by
its decimal string, so Python's `str(...)` is the identity).  Python floats are
modelled by `Rat`; Python's integer-valued fields by `Int`.
-/

namespace FitnessDashboard

/-- Python truthiness of an optional string: `None` and `""` are falsy. -/
def strTruthy : Option String → Bool
  | none => false
  | some s => s ≠ ""

/-- Python truthiness of an optional number: `None` and `0` are falsy. -/
def ratTruthy : Option Rat → Bool
  | none => false
  | some x => x ≠ 0

/-- Python `x or default` for an optional string (`default` truthy). -/
def strOr (o : Option String) (d : String) : String :=
  if strTruthy o then o.getD "" else d

/-- Python `x or 0` on an optional number (`None` and `0` both give `0`). -/
def orZero (o : Option Rat) : Rat := o.getD 0

/-- Python `round` (banker's rounding, round half to even). -/
def roundHalfEven (q : Rat) : Int :=
  let f : Int := ⌊q⌋
  let r : Rat := q - (f : Rat)
  if r < 1/2 then f
  else if 1/2 < r then f + 1
  else if f % 2 = 0 then f else f + 1

/-- Python `round(q, 2)`. -/
def roundTo2 (q : Rat) : Rat := ((roundHalfEven (q * 100) : Int) : Rat) / 100

/-- Python `sub in s` (substring containment). -/
def containsSub (s sub : String) : Bool := decide (sub.data <:+: s.data)

/-- Python `str.lower`, character by character. -/
def strLower (s : String) : String := ⟨s.data.map Char.toLower⟩

/-- Helper of `splitDash`: accumulates the current field in reverse. -/
def splitDashAux : List Char → List Char → List String
  | [], acc => [String.mk acc.reverse]
  | c :: cs, acc =>
    if c = '-' then String.mk acc.reverse :: splitDashAux cs []
    else splitDashAux cs (c :: acc)

/-- Python `s.split('-')`, as `strptime` cuts a `%Y-%m-%d` date string. -/
def splitDash (s : String) : List String := splitDashAux s.data []

/-- Helper of `parseNatStr`: reads decimal digits left to right. -/
def parseNatAux : List Char → Nat → Option Nat
  | [], acc => some acc
  | c :: cs, acc =>
    if c.isDigit then parseNatAux cs (acc * 10 + (c.toNat - 48)) else none

/-- Parse a non-empty all-digit string as a natural number (`int(s)`). -/
def parseNatStr (s : String) : Option Nat :=
  match s.data with
  | [] => none
  | l => parseNatAux l 0

/-- Lexicographic comparison of character lists by code point (how Python
compares strings); `charListLe_iff` below proves it is exactly the
lexicographic order on `List Char`. -/
def charListLe : List Char → List Char → Bool
  | [], _ => true
  | _ :: _, [] => false
  | c :: cs, d :: ds =>
    if c.toNat < d.toNat then true
    else if d.toNat < c.toNat then false
    else charListLe cs ds

/-- Python `s <= t` on strings (lexicographic by code point). -/
def strLeB (s t : String) : Bool := charListLe s.data t.data

/-- Zero-padding to two digits, as in Python's `f"{n:02d}"` for `n ≥ 0`. -/
def pad2 (n : Int) : String :=
  let s := toString n
  if s.length < 2 then "0" ++ s else s

instance {ε α : Type} [DecidableEq ε] [DecidableEq α] : DecidableEq (Except ε α) := fun x y =>
  match x, y with
  | .ok a, .ok b =>
    if h : a = b then .isTrue (congrArg Except.ok h)
    else .isFalse (fun hc => h (by cases hc; rfl))
  | .error e, .error f =>
    if h : e = f then .isTrue (congrArg Except.error h)
    else .isFalse (fun hc => h (by cases hc; rfl))
  | .ok _, .error _ => .isFalse (fun hc => Except.noConfusion hc)
  | .error _, .ok _ => .isFalse (fun hc => Except.noConfusion hc)

/-! ### Calendar arithmetic

`datetime` values are modelled by their day number (days since 1970-01-01);
the conversions between day numbers and `(year, month, day)` triples are the
standard civil-calendar algorithms, written with truncating division exactly
as their reference formulation (all intermediate operands are arranged to be
non-negative for the dates the pipeline handles). -/

/-- Day number (days since 1970-01-01) of a Gregorian calendar date. -/
def daysFromCivil (y m d : Int) : Int :=
  let y1 := if m ≤ 2 then y - 1 else y
  let era := (if 0 ≤ y1 then y1 else y1 - 399).tdiv 400
  let yoe := y1 - era * 400
  let mp := if 2 < m then m - 3 else m + 9
  let doy := (153 * mp + 2).tdiv 5 + d - 1
  let doe := yoe * 365 + yoe.tdiv 4 - yoe.tdiv 100 + doy
  era * 146097 + doe - 719468

/-- Gregorian calendar date of a day number (inverse of `daysFromCivil`). -/
def civilFromDays (z : Int) : Int × Int × Int :=
  let z1 := z + 719468
  let era := (if 0 ≤ z1 then z1 else z1 - 146096).tdiv 146097
  let doe := z1 - era * 146097
  let yoe := (doe - doe.tdiv 1460 + doe.tdiv 36524 - doe.tdiv 146096).tdiv 365
  let y := yoe + era * 400
  let doy := doe - (365 * yoe + yoe.tdiv 4 - yoe.tdiv 100)
  let mp := (5 * doy + 2).tdiv 153
  let d := doy - (153 * mp + 2).tdiv 5 + 1
  let m := if mp < 10 then mp + 3 else mp - 9
  (if m ≤ 2 then y + 1 else y, m, d)

/-- Python `datetime.weekday()`: Monday = 0 … Sunday = 6 (1970-01-01 was a Thursday). -/
def weekdayOf (z : Int) : Int := (z + 3).emod 7

/-- Python `datetime.isocalendar()` restricted to its first two components
`(iso_year, iso_week)`: the ISO year and week are those of the Thursday of the
date's Monday-based week. -/
def isoCalendar (z : Int) : Int × Int :=
  let thu := z - weekdayOf z + 3
  let y := (civilFromDays thu).1
  let jan1 := daysFromCivil y 1 1
  (y, (thu - jan1).tdiv 7 + 1)

/-- Python `datetime.strftime("%Y-%m-%d")` applied to the date with day number `z`. -/
def dateStr (z : Int) : String :=
  let c := civilFromDays z
  let ms := pad2 c.2.1
  let ds := pad2 c.2.2
  let ys := toString c.1
  ys ++ "-" ++ ms ++ "-" ++ ds

/-- Gregorian leap-year test. -/
def isLeap (y : Int) : Bool := (y.emod 4 = 0 && y.emod 100 ≠ 0) || y.emod 400 = 0

/-- Number of days in a month. -/
def daysInMonth (y m : Int) : Int :=
  if m = 2 then (if isLeap y then 29 else 28)
  else if m = 4 ∨ m = 6 ∨ m = 9 ∨ m = 11 then 30
  else 31

/-- Python `datetime.strptime(s, "%Y-%m-%d")`, returning the day number of the
parsed date, or `none` when parsing fails (`strptime` raises `ValueError`). -/
def parseDateDays (s : String) : Option Int :=
  match splitDash s with
  | [ys, ms, ds] =>
    match parseNatStr ys, parseNatStr ms, parseNatStr ds with
    | some y, some m, some d =>
      if 1 ≤ m ∧ m ≤ 12 ∧ 1 ≤ d ∧ (d : Int) ≤ daysInMonth (y : Int) (m : Int) then
        some (daysFromCivil (y : Int) (m : Int) (d : Int))
      else none
    | _, _, _ => none
  | _ => none

/-! ### Data model -/

/-- The canonical activity record built by the three `process_*_activity`
normalizers in `collect_data.py`. -/
structure Activity where
  id : String := ""
  strava_id : Option String := none
  source : String := ""
  name : String := ""
  type : String := "Unknown"
  date : String := ""
  duration : Rat := 0
  distance : Rat := 0
  elevation : Rat := 0
  avg_power : Option Rat := none
  norm_power : Option Rat := none
  avg_hr : Option Rat := none
  max_hr : Option Rat := none
  avg_speed : Option Rat := none
  avg_cadence : Option Rat := none
  calories : Option Rat := none
  tss : Int := 0
  if_val : Option Rat := none
  ftp : Option Rat := none
  w_prime : Option Rat := none
  weight : Option Rat := none
  device : String := ""
  is_garmin : Bool := false
deriving DecidableEq, Repr

/-- A raw Intervals.icu activity record (the fields `collect_data.py` reads;
`note` models the `"_note"` key that marks Strava stub records). -/
structure IRec where
  id : Option String := none
  strava_id : Option String := none
  source : Option String := none
  name : Option String := none
  type : Option String := none
  start_date_local : Option String := none
  moving_time : Option Rat := none
  distance : Option Rat := none
  total_elevation_gain : Option Rat := none
  icu_average_watts : Option Rat := none
  icu_weighted_avg_watts : Option Rat := none
  average_heartrate : Option Rat := none
  max_heartrate : Option Rat := none
  average_speed : Option Rat := none
  average_cadence : Option Rat := none
  calories : Option Rat := none
  icu_training_load : Option Rat := none
  icu_intensity : Option Rat := none
  icu_ftp : Option Rat := none
  icu_w_prime : Option Rat := none
  icu_weight : Option Rat := none
  device_name : Option String := none
  note : Option String := none
deriving DecidableEq, Repr

/-- A raw Strava activity record. -/
structure SRec where
  id : Option String := none
  sport_type : Option String := none
  type : Option String := none
  name : Option String := none
  start_date_local : Option String := none
  moving_time : Option Rat := none
  distance : Option Rat := none
  total_elevation_gain : Option Rat := none
  average_watts : Option Rat := none
  weighted_average_watts : Option Rat := none
  average_heartrate : Option Rat := none
  max_heartrate : Option Rat := none
  average_speed : Option Rat := none
  average_cadence : Option Rat := none
  calories : Option Rat := none
  device_name : Option String := none
deriving DecidableEq, Repr

/-- The `heart_rate` field of a Concept2 workout: a `{average, max}` object,
a bare number, or absent. -/
inductive HR where
  | missing : HR
  | obj (average max : Option Rat) : HR
  | num (x : Rat) : HR
deriving DecidableEq, Repr

/-- A raw Concept2 workout record as read by `process_concept2_activity`
(`time` and `distance` are integers in the Concept2 API: centiseconds and metres). -/
structure CRec where
  id : Option String := none
  time : Option Int := none
  distance : Option Int := none
  heart_rate : HR := .missing
  stroke_rate : Option Rat := none
  calories : Option Rat := none
  date : Option String := none
deriving DecidableEq, Repr

/-! ### Field normalizers (`collect_data.py` lines 524-658) -/

/-- `process_intervals_activity` (collect_data.py:524). -/
def process_intervals_activity (a : IRec) : Activity :=
  let raw_if := a.icu_intensity
  let if_val : Option Rat :=
    if ratTruthy raw_if then some (roundTo2 (raw_if.getD 0 / 100)) else none
  { id := a.id.getD ""
    strava_id := if strTruthy a.strava_id then a.strava_id else none
    source := a.source.getD "INTERVALS"
    name := strOr a.name "Activity"
    type := strOr a.type "Unknown"
    date := (a.start_date_local.getD "").take 10
    duration := orZero a.moving_time
    distance := orZero a.distance
    elevation := orZero a.total_elevation_gain
    avg_power := a.icu_average_watts
    norm_power := a.icu_weighted_avg_watts
    avg_hr := a.average_heartrate
    max_hr := a.max_heartrate
    avg_speed := a.average_speed
    avg_cadence := a.average_cadence
    calories := a.calories
    tss := roundHalfEven (orZero a.icu_training_load)
    if_val := if_val
    ftp := a.icu_ftp
    w_prime := a.icu_w_prime
    weight := a.icu_weight
    device := a.device_name.getD ""
    is_garmin := containsSub (strLower (a.device_name.getD "")) "garmin" }

/-- The `type_map` literal of `process_strava_activity`. -/
def stravaTypePairs : List (String × String) :=
  [("Ride", "Ride"), ("VirtualRide", "VirtualRide"), ("Run", "Run"),
   ("VirtualRun", "VirtualRun"), ("Rowing", "Rowing"), ("Kayaking", "Kayaking"),
   ("WeightTraining", "WeightTraining"), ("Workout", "Workout"), ("Yoga", "Yoga"),
   ("Walk", "Walk"), ("Hike", "Hike"), ("Swim", "Swim"), ("Crossfit", "Crossfit"),
   ("Elliptical", "Cardio"), ("StairStepper", "Cardio")]

/-- `process_strava_activity` (collect_data.py:554). -/
def process_strava_activity (a : SRec) : Activity :=
  let lookupKey := if strTruthy a.sport_type then a.sport_type.getD "" else a.type.getD ""
  let act_type := (stravaTypePairs.lookup lookupKey).getD (a.sport_type.getD "Other")
  { id := "strava_" ++ a.id.getD ""
    strava_id := some (a.id.getD "")
    source := "STRAVA"
    name := strOr a.name "Activity"
    type := act_type
    date := (a.start_date_local.getD "").take 10
    duration := orZero a.moving_time
    distance := orZero a.distance
    elevation := orZero a.total_elevation_gain
    avg_power := a.average_watts
    norm_power := a.weighted_average_watts
    avg_hr := a.average_heartrate
    max_hr := a.max_heartrate
    avg_speed := a.average_speed
    avg_cadence := a.average_cadence
    calories := a.calories
    tss := 0
    if_val := none
    ftp := none
    w_prime := none
    weight := none
    device := a.device_name.getD ""
    is_garmin := false }

/-- `process_concept2_activity` (collect_data.py:589).  Returns `none` when the
raw `time` field is `0` or missing (the function prints a warning and returns
`None`); the `except` arm of the Python function catches dynamic type errors,
which cannot arise in this typed model. -/
def process_concept2_activity (w : CRec) : Option Activity :=
  let duration_raw : Int := w.time.getD 0
  if duration_raw = 0 then none
  else
    let duration_seconds : Rat := (duration_raw : Rat) / 100
    let distance : Int := w.distance.getD 0
    let hrPair : Option Rat × Option Rat :=
      match w.heart_rate with
      | .missing => (none, none)
      | .obj av mx => (av, mx)
      | .num x => (some x, none)
    let _avg_pace : Option Rat :=
      if 0 < distance then some (duration_seconds / (distance : Rat) * 500) else none
    let workout_date : String :=
      if strTruthy w.date then (w.date.getD "").take 10 else "Unknown"
    let workout_name : String :=
      if 0 < distance then s!"Concept2 Rowing - {distance}m"
      else if 0 < duration_seconds then
        let minutes : Int := ⌊duration_seconds / 60⌋
        let seconds : Int := ⌊duration_seconds - 60 * (minutes : Rat)⌋
        let ss := pad2 seconds
        s!"Concept2 Rowing - {minutes}:{ss}"
      else "Concept2 Rowing"
    some
      { id := "concept2_" ++ w.id.getD ""
        strava_id := none
        source := "CONCEPT2"
        name := workout_name
        type := "Rowing"
        date := workout_date
        duration := duration_seconds
        distance := (distance : Rat)
        elevation := 0
        avg_power := none
        norm_power := none
        avg_hr := hrPair.1
        max_hr := hrPair.2
        avg_speed := if 0 < duration_seconds then some ((distance : Rat) / duration_seconds) else none
        avg_cadence := w.stroke_rate
        calories := w.calories
        tss := 0
        if_val := none
        ftp := none
        w_prime := none
        weight := none
        device := "Concept2 RowErg"
        is_garmin := false }

/-! ### Deduplicator/merger (`collect_data.py` lines 661-694) -/

/-- The stub test of `merge_activities`: `a.get('_note') or not a.get('type')`. -/
def isStub (a : IRec) : Bool := strTruthy a.note || !strTruthy a.type

/-- One iteration of the first loop of `merge_activities`: the accumulator is
the pair of the `processed` list and the `strava_ids_covered` set (a list used
only through membership). -/
def intervalsStep (st : List Activity × List String) (a : IRec) :
    List Activity × List String :=
  if isStub a then
    (st.1, if strTruthy a.strava_id then st.2 ++ [a.strava_id.getD ""] else st.2)
  else
    let act := process_intervals_activity a
    (st.1 ++ [act], if strTruthy act.strava_id then st.2 ++ [act.strava_id.getD ""] else st.2)

/-- The first loop of `merge_activities` over the raw Intervals records. -/
def intervalsPass (l : List IRec) : List Activity × List String :=
  l.foldl intervalsStep ([], [])

/-- The second loop of `merge_activities`: Strava records whose id is not in
`strava_ids_covered` are normalized and appended. -/
def stravaPass (covered : List String) (l : List SRec) : List Activity :=
  l.foldl (fun acc b =>
    if covered.contains (b.id.getD "") then acc
    else acc ++ [process_strava_activity b]) []

/-- The descending-by-date comparison used by the final
`sorted(processed, key=lambda x: x['date'], reverse=True)`: `dateGe x y` holds
when `y.date ≤ x.date` (see `dateGe_iff`). -/
def dateGe (x y : Activity) : Prop := strLeB y.date x.date = true

instance : DecidableRel dateGe := fun x y =>
  inferInstanceAs (Decidable (strLeB y.date x.date = true))

/-- The `processed` list of `merge_activities` just before the final sort,
with the successfully normalized Concept2 activities (in Python a failed
normalization leaves a `None` in the list; see `merge_activities`). -/
def processedAll (A : List IRec) (B : List SRec) (C : List CRec) : List Activity :=
  (intervalsPass A).1 ++ stravaPass (intervalsPass A).2 B
    ++ (C.map process_concept2_activity).reduceOption

/-- `merge_activities` (collect_data.py:661).  The third loop appends
`process_concept2_activity(w)` unconditionally, so a failed normalization puts
`None` into `processed` and the final `sorted(..., key=lambda x: x['date'])`
raises `TypeError` while computing the keys; this is modelled by the
`Except.error` result.  Python's `sorted` with `reverse=True` is the stable
descending sort, i.e. the insertion sort under `dateGe`. -/
def merge_activities (A : List IRec) (B : List SRec) (C : List CRec) :
    Except Unit (List Activity) :=
  if (C.map process_concept2_activity).all Option.isSome then
    .ok (List.insertionSort dateGe (processedAll A B C))
  else .error ()

/-! ### `deduplicate` (collect_data.py:749)

The Python function is generic in the `key` parameter: `keyOf` stands for
`lambda item: str(item.get(key, ''))` for the chosen key name. -/

/-- The loop of `deduplicate`, with the `seen` set modelled by a list used
only through membership. -/
def dedupGo {α : Type} (keyOf : α → String) (seen : List String) : List α → List α
  | [] => []
  | x :: l =>
    if seen.contains (keyOf x) then dedupGo keyOf seen l
    else x :: dedupGo keyOf (keyOf x :: seen) l

/-- `deduplicate` (collect_data.py:749): keep the first record for each
stringified key value. -/
def deduplicate {α : Type} (items : List α) (keyOf : α → String) : List α :=
  dedupGo keyOf [] items

/-! ### `aggregate_weekly_tss` (collect_data.py:760) -/

/-- One row of the weekly-TSS table (`weeks[key]` in the Python source). -/
structure WeekRow where
  week : String
  year : Int
  ride : Int
  run : Int
  row : Int
  other : Int
deriving DecidableEq, Repr

/-- The per-type bucket update of `aggregate_weekly_tss`. -/
def addToBucket (r : WeekRow) (t : String) (tss : Int) : WeekRow :=
  if t = "Ride" ∨ t = "VirtualRide" then { r with ride := r.ride + tss }
  else if t = "Run" ∨ t = "VirtualRun" then { r with run := r.run + tss }
  else if t = "Rowing" ∨ t = "Kayaking" then { r with row := r.row + tss }
  else { r with other := r.other + tss }

/-- One iteration of the loop of `aggregate_weekly_tss`; the `weeks` dict is an
association list in insertion order.  `strptime` failure on a non-empty date
raises `ValueError` in Python, modelled by `Except.error`. -/
def weekStep (weeks : List (String × WeekRow)) (a : Activity) :
    Except Unit (List (String × WeekRow)) :=
  if a.date = "" then .ok weeks
  else
    match parseDateDays a.date with
    | none => .error ()
    | some z =>
      let iso := isoCalendar z
      let wpad := pad2 iso.2
      let key := toString iso.1 ++ "-W" ++ wpad
      let weeks1 :=
        if (weeks.lookup key).isSome then weeks
        else
          weeks ++ [(key,
            { week := "W" ++ toString iso.2, year := iso.1,
              ride := 0, run := 0, row := 0, other := 0 })]
      .ok (weeks1.map (fun kv =>
        if kv.1 = key then (kv.1, addToBucket kv.2 a.type a.tss) else kv))

/-- The ascending `(year, week)` comparison of the final
`sorted(weeks.values(), key=lambda x: (x['year'], x['week']))` — note that
`x['week']` is the string `f"W{iso_week}"`, so the second component compares
lexicographically as a string. -/
def rowLe (x y : WeekRow) : Prop :=
  x.year < y.year ∨ (x.year = y.year ∧ strLeB x.week y.week = true)

instance : DecidableRel rowLe := fun x y =>
  inferInstanceAs (Decidable (x.year < y.year ∨ (x.year = y.year ∧ strLeB x.week y.week = true)))

/-- `aggregate_weekly_tss` (collect_data.py:760). -/
def aggregate_weekly_tss (activities : List Activity) : Except Unit (List WeekRow) :=
  (activities.foldlM weekStep []).map fun weeks =>
    List.insertionSort rowLe (weeks.map (·.2))

/-! ### `build_heatmap` (collect_data.py:795) -/

/-- One heatmap cell. -/
structure Cell where
  date : String
  level : Nat
  tss : Int
deriving DecidableEq, Repr

/-- `build_heatmap` (collect_data.py:795).  `today` is the day number of
`datetime.now()`; subtracting `timedelta(days=i)` keeps the time of day, so the
printed date of `end - timedelta(days=i)` is `dateStr (today - i)`.  The
`act_by_date` dict is modelled by its lookup-with-default-0 function. -/
def build_heatmap (today : Int) (activities : List Activity) (days : Nat) : List Cell :=
  let act_by_date : String → Int :=
    activities.foldl
      (fun f a =>
        if a.date = "" then f
        else fun x => if x = a.date then f a.date + a.tss else f x)
      (fun _ => 0)
  (List.range days).reverse.map fun (i : Nat) =>
    let ds := dateStr (today - (i : Int))
    let tss := act_by_date ds
    let level0 : Nat := 0
    let level1 := if 0 < tss then 1 else level0
    let level2 := if 40 < tss then 2 else level1
    let level3 := if 80 < tss then 3 else level2
    let level4 := if 120 < tss then 4 else level3
    let level5 := if 180 < tss then 5 else level4
    { date := ds, level := level5, tss := tss }

/-- The discrete intensity level described by the spec: the highest threshold
strictly exceeded by the day's summed TSS. -/
def levelOf (tss : Int) : Nat :=
  if 180 < tss then 5
  else if 120 < tss then 4
  else if 80 < tss then 3
  else if 40 < tss then 2
  else if 0 < tss then 1
  else 0

/-! ### Critical-power model -/

/-- Modelled from the spec: the critical-power aggregator is not part of the
sources under `src/` (the repository's Python files only pass `cp`/`w_prime`
values through); spec §4.3 gives the closed form over the 5-minute (`t1=300s`)
and 20-minute (`t2=1200s`) power samples, with an empty result when either
sample is zero. -/
def critical_power_model (p5 p20 : Rat) : Option (Rat × Rat) :=
  if p5 = 0 ∨ p20 = 0 then none
  else
    let t1 : Rat := 300
    let t2 : Rat := 1200
    let wprime := (p5 - p20) * t1 * t2 / (t2 - t1)
    let cp := (p5 * t1 - p20 * t2) / (t1 - t2)
    some (cp, wprime)

/-! ### The Concept2 connector (`src/fitness-dashboard/connectors/concept2.py`) -/

/-- One raw split of a Concept2 workout. -/
structure C2Split where
  time : Option Int := none
  distance : Option Int := none
  heart_rate : Option Rat := none
deriving DecidableEq, Repr

/-- A raw Concept2 workout as read by the connector's `standardize_workout`;
this code path reads `heart_rate` as a `{average, max}` object
(`hr_average`/`hr_max` model `raw_workout.get("heart_rate", {}).get(...)`). -/
structure C2Raw where
  id : Option String := none
  time : Option Int := none
  distance : Option Int := none
  hr_average : Option Rat := none
  hr_max : Option Rat := none
  stroke_rate : Option Rat := none
  calories : Option Rat := none
  date : Option String := none
  comments : Option String := none
  splits : List C2Split := []
deriving DecidableEq, Repr

/-- A standardized split produced by `_parse_splits`. -/
structure StdSplit where
  distance : Int
  time : Rat
  avg_pace : Option Rat
  avg_heart_rate : Option Rat
deriving DecidableEq, Repr

/-- The standardized activity produced by `Concept2Connector.standardize_workout`. -/
structure StdWorkout where
  id : String
  source : String
  type : String
  start_time : Option String
  duration : Rat
  distance : Int
  name : String
  description : Option String
  avg_heart_rate : Option Rat
  max_heart_rate : Option Rat
  avg_cadence : Option Rat
  avg_pace : Option Rat
  calories : Option Rat
  splits : List StdSplit
  raw_data : C2Raw
deriving DecidableEq, Repr

/-- Python's `str` of the float `t / 100` for an integer `t` (the value has at
most two decimal places, and `repr` of such a float prints the shortest
round-tripping decimal). -/
def centiStr (t : Int) : String :=
  let sign := if t < 0 then "-" else ""
  let n := t.natAbs
  let ip := n / 100
  let fr := n % 100
  if fr = 0 then sign ++ toString ip ++ ".0"
  else if fr % 10 = 0 then sign ++ toString ip ++ "." ++ toString (fr / 10)
  else sign ++ toString ip ++ "." ++ (if fr < 10 then "0" ++ toString fr else toString fr)

/-- `Concept2Connector._parse_splits` (concept2.py:246). -/
def parseSplits (raw_splits : List C2Split) : List StdSplit :=
  raw_splits.map fun s =>
    let split_time : Rat := ((s.time.getD 0 : Int) : Rat) / 100
    let split_distance : Int := s.distance.getD 0
    { distance := split_distance
      time := split_time
      avg_pace :=
        if 0 < split_distance then some (split_time / (split_distance : Rat) * 500) else none
      avg_heart_rate := s.heart_rate }

/-- `Concept2Connector.standardize_workout` (concept2.py:209). -/
def standardize_workout (w : C2Raw) : StdWorkout :=
  let duration_seconds : Rat := ((w.time.getD 0 : Int) : Rat) / 100
  let distance : Int := w.distance.getD 0
  let avg_pace : Option Rat :=
    if 0 < distance then some (duration_seconds / (distance : Rat) * 500) else none
  { id := match w.id with | some s => s | none => "None"
    source := "concept2"
    type := "Rowing"
    start_time := w.date
    duration := duration_seconds
    distance := distance
    name :=
      if distance ≠ 0 then s!"Rowing - {distance}m"
      else "Rowing - " ++ centiStr (w.time.getD 0) ++ "s"
    description := w.comments
    avg_heart_rate := w.hr_average
    max_heart_rate := w.hr_max
    avg_cadence := w.stroke_rate
    avg_pace := avg_pace
    calories := w.calories
    splits := parseSplits w.splits
    raw_data := w }

/-! ### Spec-side predicates and concrete records used by the claims -/

/-- The spec's "cross-source duplicate ids exist among the inputs": some
primary record carries a truthy cross-source id equal to some secondary
record's id. -/
def crossDup (A : List IRec) (B : List SRec) : Bool :=
  A.any fun a => strTruthy a.strava_id && B.any fun b => b.id.getD "" == a.strava_id.getD ""

/-- A primary-source stub record referencing cross-source id `"X"`. -/
def cStub : IRec := { note := some "Strava stub", strava_id := some "X" }

/-- A real (non-stub) primary record also carrying cross-source id `"X"`. -/
def cReal1 : IRec :=
  { type := some "Ride", strava_id := some "X", id := some "1",
    start_date_local := some "2025-02-01T07:00:00" }

/-- A second real primary record carrying the same cross-source id `"X"`. -/
def cReal2 : IRec :=
  { type := some "Run", strava_id := some "X", id := some "2",
    start_date_local := some "2025-02-02T07:00:00" }

/-- A secondary-source record whose id is `"X"`. -/
def cSecX : SRec := { id := some "X" }

/-- A primary-source stub record referencing no cross-source id. -/
def cStubPlain : IRec := { note := some "Strava stub" }

/-- A plain real primary record. -/
def cRide : IRec :=
  { type := some "Ride", id := some "7", start_date_local := some "2025-02-01T07:00:00" }

/-- A Concept2 workout whose raw `time` is 12000 centiseconds. -/
def cw12000 : CRec := { id := some "5", time := some 12000, distance := some 500 }

/-- The activity `process_concept2_activity` produces for `cw12000`
(`avg_speed = 500 m / 120 s = 25/6 m/s`). -/
def c8act : Activity :=
  { id := "concept2_5", source := "CONCEPT2", name := "Concept2 Rowing - 500m",
    type := "Rowing", date := "Unknown", duration := 120, distance := 500,
    avg_speed := some (25 / 6), device := "Concept2 RowErg" }

/-- A Concept2 workout whose raw `time` is 0, so normalization fails. -/
def cwZero : CRec := { id := some "w1", time := some 0 }

/-- A real primary record used to exercise the merge sort. -/
def cI4 : IRec :=
  { type := some "Ride", id := some "9", start_date_local := some "2025-04-01T08:00:00" }

/-! ### Supporting lemmas -/

@[simp] theorem strTruthy_none : strTruthy none = false := rfl

theorem str_le_empty_iff {s : String} : s ≤ "" ↔ s = "" := by
  constructor
  · intro h
    by_contra hne
    have hlt : ("" : String) < s := by
      rw [String.lt_iff_toList_lt, String.toList_nonempty hne]
      exact List.nil_lt_cons _ _
    exact absurd hlt (not_lt.mpr h)
  · intro h
    subst h
    exact le_refl _

theorem char_eq_of_toNat_eq {c d : Char} (h : c.toNat = d.toNat) : c = d :=
  Char.ext (UInt32.ext h)

theorem charListLe_iff : ∀ l₁ l₂ : List Char, charListLe l₁ l₂ = true ↔ l₁ ≤ l₂
  | [], l₂ => by simp [charListLe, List.nil_le]
  | c :: cs, [] => by
    rw [show charListLe (c :: cs) [] = false from rfl]
    simp only [Bool.false_eq_true, false_iff, not_le]
    exact List.nil_lt_cons c cs
  | c :: cs, d :: ds => by
    rw [charListLe]
    by_cases h1 : c.toNat < d.toNat
    · simp only [if_pos h1, true_iff]
      exact le_of_lt (List.Lex.rel h1)
    · by_cases h2 : d.toNat < c.toNat
      · simp only [if_neg h1, if_pos h2, Bool.false_eq_true, false_iff, not_le]
        exact List.Lex.rel h2
      · have hcd : c = d :=
          char_eq_of_toNat_eq (Nat.le_antisymm (Nat.le_of_not_lt h2) (Nat.le_of_not_lt h1))
        subst hcd
        rw [if_neg h1, if_neg h2, charListLe_iff cs ds]
        constructor
        · exact List.cons_le_cons c
        · intro h
          by_contra hnot
          rw [not_le] at hnot
          exact absurd h (not_le.mpr (List.Lex.cons hnot))

/-- The Bool comparison `strLeB` decides the lexicographic order on strings. -/
theorem strLeB_iff (s t : String) : strLeB s t = true ↔ s ≤ t := by
  rw [String.le_iff_toList_le]
  exact charListLe_iff s.data t.data

/-- `dateGe` is the descending comparison of the `date` fields. -/
theorem dateGe_iff {x y : Activity} : dateGe x y ↔ y.date ≤ x.date :=
  strLeB_iff y.date x.date

/-- The `strava_id` field of a normalized Intervals activity. -/
theorem process_intervals_strava_id (a : IRec) :
    (process_intervals_activity a).strava_id
      = if strTruthy a.strava_id then a.strava_id else none := rfl

/-- The cross-source id contributed to `strava_ids_covered` by one raw
Intervals record (both branches of the first loop add the record's
`strava_id` exactly when it is truthy). -/
def coveredKey (a : IRec) : Option String :=
  if strTruthy a.strava_id then some (a.strava_id.getD "") else none

theorem foldl_intervalsStep_fst (l : List IRec) (p : List Activity) (c : List String) :
    (l.foldl intervalsStep (p, c)).1
      = p ++ (l.filter (fun a => !isStub a)).map process_intervals_activity := by
  induction l generalizing p c with
  | nil => simp
  | cons a l ih =>
    simp only [List.foldl_cons, List.filter_cons]
    by_cases h : isStub a
    · simp [intervalsStep, h, ih]
    · simp [intervalsStep, h, ih]

theorem foldl_intervalsStep_snd (l : List IRec) (p : List Activity) (c : List String) :
    (l.foldl intervalsStep (p, c)).2 = c ++ l.filterMap coveredKey := by
  induction l generalizing p c with
  | nil => simp
  | cons a l ih =>
    simp only [List.foldl_cons, List.filterMap_cons]
    by_cases hs : isStub a <;> by_cases ht : strTruthy a.strava_id <;>
      simp [intervalsStep, hs, ht, coveredKey, process_intervals_strava_id, ih]

theorem intervalsPass_fst (l : List IRec) :
    (intervalsPass l).1 = (l.filter (fun a => !isStub a)).map process_intervals_activity :=
  foldl_intervalsStep_fst l [] []

theorem intervalsPass_snd (l : List IRec) :
    (intervalsPass l).2 = l.filterMap coveredKey :=
  foldl_intervalsStep_snd l [] []

theorem stravaPass_eq (cov : List String) (l : List SRec) :
    stravaPass cov l
      = (l.filter (fun b => !cov.contains (b.id.getD ""))).map process_strava_activity := by
  have go : ∀ (l : List SRec) (acc : List Activity),
      l.foldl (fun acc b =>
        if cov.contains (b.id.getD "") then acc
        else acc ++ [process_strava_activity b]) acc
        = acc ++ (l.filter (fun b => !cov.contains (b.id.getD ""))).map process_strava_activity := by
    intro l
    induction l with
    | nil => intro acc; simp
    | cons b l ih =>
      intro acc
      rw [List.foldl_cons]
      by_cases h : cov.contains (b.id.getD "") = true
      · rw [if_pos h, ih, List.filter_cons]
        have hm : b.id.getD "" ∈ cov := by simpa using h
        simp [h, hm]
      · rw [if_neg h, ih, List.filter_cons]
        have hm : ¬(b.id.getD "" ∈ cov) := by simpa using h
        simp [hm, List.append_assoc]
  exact go l []

theorem reduceOption_length_of_all {α : Type} (l : List (Option α))
    (h : l.all Option.isSome) : l.reduceOption.length = l.length := by
  induction l with
  | nil => rfl
  | cons x l ih =>
    simp only [List.all_cons, Bool.and_eq_true] at h
    obtain ⟨hx, hl⟩ := h
    obtain ⟨a, rfl⟩ := Option.isSome_iff_exists.mp hx
    rw [List.reduceOption_cons_of_some]
    simp [ih hl]

theorem merge_ok_eq {A : List IRec} {B : List SRec} {C : List CRec} {out : List Activity}
    (h : merge_activities A B C = .ok out) :
    out = List.insertionSort dateGe (processedAll A B C)
      ∧ (C.map process_concept2_activity).all Option.isSome = true := by
  unfold merge_activities at h
  split at h
  · exact ⟨(Except.ok.injEq _ _ ▸ h).symm, by assumption⟩
  · exact absurd h (by simp)

theorem merge_ok_perm {A : List IRec} {B : List SRec} {C : List CRec} {out : List Activity}
    (h : merge_activities A B C = .ok out) : out.Perm (processedAll A B C) := by
  rw [(merge_ok_eq h).1]
  exact List.perm_insertionSort dateGe (processedAll A B C)

theorem filter_date_orderedInsert (d : String) (a : Activity) (l : List Activity) :
    (List.orderedInsert dateGe a l).filter (fun x => x.date == d)
      = if a.date == d then a :: l.filter (fun x => x.date == d)
        else l.filter (fun x => x.date == d) := by
  induction l with
  | nil => simp [List.orderedInsert, List.filter_cons]
  | cons b l ih =>
    by_cases hr : dateGe a b
    · simp [List.orderedInsert, hr, List.filter_cons]
    · simp only [List.orderedInsert, if_neg hr, List.filter_cons]
      by_cases hb : b.date == d
      · by_cases ha : a.date == d
        · exfalso
          have h1 : b.date = d := by simpa using hb
          have h2 : a.date = d := by simpa using ha
          exact hr (dateGe_iff.mpr (le_of_eq (h1.trans h2.symm)))
        · simp [hb, ha, ih]
      · by_cases ha : a.date == d <;> simp [hb, ha, ih]

theorem filter_date_insertionSort (d : String) (l : List Activity) :
    (List.insertionSort dateGe l).filter (fun x => x.date == d)
      = l.filter (fun x => x.date == d) := by
  induction l with
  | nil => rfl
  | cons a l ih =>
    rw [List.insertionSort, filter_date_orderedInsert, ih, List.filter_cons]

theorem pairwise_empty_date_suffix {l : List Activity} (h : l.Pairwise dateGe) :
    l = l.filter (fun x => !(x.date == "")) ++ l.filter (fun x => x.date == "") := by
  induction l with
  | nil => rfl
  | cons a l ih =>
    rw [List.pairwise_cons] at h
    obtain ⟨ha, hl⟩ := h
    by_cases hd : a.date = ""
    · have hall : ∀ y ∈ l, y.date = "" := fun y hy =>
        str_le_empty_iff.mp (hd ▸ dateGe_iff.mp (ha y hy))
      have h1 : l.filter (fun x => !(x.date == "")) = [] := by
        rw [List.filter_eq_nil_iff]
        intro x hx
        simp [hall x hx]
      have h2 : l.filter (fun x => x.date == "") = l := by
        rw [List.filter_eq_self]
        intro x hx
        simp [hall x hx]
      rw [List.filter_cons, List.filter_cons]
      simp [hd, h1, h2]
    · have h1 : (a :: l).filter (fun x => !(x.date == ""))
          = a :: l.filter (fun x => !(x.date == "")) := by
        simp [List.filter_cons, hd]
      have h2 : (a :: l).filter (fun x => x.date == "")
          = l.filter (fun x => x.date == "") := by
        simp [List.filter_cons, hd]
      rw [h1, h2, List.cons_append]
      exact congrArg (List.cons a) (ih hl)

theorem dedupGo_congr {α : Type} (keyOf : α → String) :
    ∀ (l : List α) (s1 s2 : List String), (∀ x, x ∈ s1 ↔ x ∈ s2) →
      dedupGo keyOf s1 l = dedupGo keyOf s2 l
  | [], _, _, _ => rfl
  | x :: l, s1, s2, h => by
    simp only [dedupGo]
    by_cases hx : keyOf x ∈ s1
    · rw [if_pos (List.elem_iff.mpr hx), if_pos (List.elem_iff.mpr ((h _).mp hx))]
      exact dedupGo_congr keyOf l s1 s2 h
    · rw [if_neg (fun hc => hx (List.elem_iff.mp hc)),
        if_neg (fun hc => hx ((h _).mpr (List.elem_iff.mp hc)))]
      refine congrArg (List.cons x) (dedupGo_congr keyOf l _ _ fun y => ?_)
      simp only [List.mem_cons]
      exact or_congr Iff.rfl (h y)

theorem dedupGo_filter {α : Type} (keyOf : α → String) :
    ∀ (l : List α) (k : String) (seen : List String),
      dedupGo keyOf (k :: seen) l
        = dedupGo keyOf seen (l.filter fun y => !(keyOf y == k))
  | [], _, _ => rfl
  | y :: l, k, seen => by
    simp only [dedupGo, List.filter_cons]
    by_cases hyk : keyOf y = k
    · rw [if_pos (List.elem_iff.mpr (by simp [hyk])), if_neg (by simp [hyk])]
      exact dedupGo_filter keyOf l k seen
    · by_cases hys : keyOf y ∈ seen
      · rw [if_pos (List.elem_iff.mpr (by simp [hys])), if_pos (by simp [hyk]),
          dedupGo, if_pos (List.elem_iff.mpr hys)]
        exact dedupGo_filter keyOf l k seen
      · rw [if_neg (by simp [hyk, hys]), if_pos (by simp [hyk]), dedupGo,
          if_neg (by simpa using hys)]
        refine congrArg (List.cons y) ?_
        rw [show (keyOf y :: k :: seen) = [keyOf y, k] ++ seen from rfl]
        rw [dedupGo_congr keyOf l ([keyOf y, k] ++ seen) ([k, keyOf y] ++ seen)
          (fun x => by simp [List.mem_cons, or_left_comm, or_comm])]
        rw [show ([k, keyOf y] ++ seen : List String) = k :: (keyOf y :: seen) from rfl]
        exact dedupGo_filter keyOf l k (keyOf y :: seen)

theorem dedupGo_sublist {α : Type} (keyOf : α → String) :
    ∀ (l : List α) (seen : List String), (dedupGo keyOf seen l).Sublist l
  | [], _ => List.Sublist.refl _
  | x :: l, seen => by
    simp only [dedupGo]
    by_cases hx : keyOf x ∈ seen
    · rw [if_pos (List.elem_iff.mpr hx)]
      exact (dedupGo_sublist keyOf l seen).cons x
    · rw [if_neg (fun hc => hx (List.elem_iff.mp hc))]
      exact (dedupGo_sublist keyOf l _).cons₂ x

theorem dedupGo_not_mem_seen {α : Type} (keyOf : α → String) :
    ∀ (l : List α) (seen : List String) (x : α), x ∈ dedupGo keyOf seen l →
      keyOf x ∉ seen
  | [], _, _, h => absurd h (List.not_mem_nil _)
  | y :: l, seen, x, h => by
    by_cases hy : keyOf y ∈ seen
    · rw [dedupGo, if_pos (List.elem_iff.mpr hy)] at h
      exact dedupGo_not_mem_seen keyOf l seen x h
    · rw [dedupGo, if_neg (fun hc => hy (List.elem_iff.mp hc))] at h
      rcases List.mem_cons.mp h with rfl | h2
      · exact hy
      · exact fun hm =>
          dedupGo_not_mem_seen keyOf l _ x h2 (List.mem_cons_of_mem _ hm)

theorem dedupGo_pairwise {α : Type} (keyOf : α → String) :
    ∀ (l : List α) (seen : List String),
      (dedupGo keyOf seen l).Pairwise (fun x y => keyOf x ≠ keyOf y)
  | [], _ => List.Pairwise.nil
  | y :: l, seen => by
    by_cases hy : keyOf y ∈ seen
    · rw [dedupGo, if_pos (List.elem_iff.mpr hy)]
      exact dedupGo_pairwise keyOf l seen
    · rw [dedupGo, if_neg (fun hc => hy (List.elem_iff.mp hc))]
      refine List.pairwise_cons.mpr ⟨fun x hx => ?_, dedupGo_pairwise keyOf l _⟩
      have := dedupGo_not_mem_seen keyOf l _ x hx
      exact fun he => this (he ▸ List.mem_cons_self _ _)

theorem heatmap_fold_eq (l : List Activity) (f : String → Int) (d : String) :
    (l.foldl
      (fun f a => if a.date = "" then f else fun x => if x = a.date then f a.date + a.tss else f x)
      f) d
      = f d + ((l.filter fun a => (a.date != "") && (a.date == d)).map Activity.tss).sum := by
  induction l generalizing f with
  | nil => simp
  | cons a l ih =>
    rw [List.foldl_cons, List.filter_cons]
    by_cases h0 : a.date = ""
    · rw [if_pos h0, ih]
      simp [h0]
    · rw [if_neg h0, ih]
      by_cases hd : a.date = d
      · subst hd
        rw [if_pos rfl]
        simp only [bne_iff_ne, ne_eq, h0, not_false_eq_true, beq_self_eq_true, and_self,
          if_pos, List.map_cons, List.sum_cons, Bool.and_self]
        simp [h0]
        omega
      · rw [if_neg (fun hh => hd hh.symm)]
        simp [hd]

/-! ### The claims -/

/-- C2: the spec requires a failed per-record normalization to be isolated,
logged and dropped, with `merge_activities` still returning the other records.
In the code, `process_concept2_activity` on a tertiary workout with `time = 0`
returns `None` after logging, but the third loop of `merge_activities` appends
the result unconditionally, so the `None` reaches the final
`sorted(..., key=lambda x: x['date'])`, which raises `TypeError` — the merge
aborts instead of dropping the record (modelled by `Except.error`). -/
theorem c2_merge_aborts_on_failed_concept2 :
    process_concept2_activity cwZero = none
      ∧ merge_activities [] [] [cwZero] = .error () := ⟨rfl, rfl⟩

/-- C7: the claim says the weekly rows are emitted sorted ascending by
`(iso_year, iso_week)`.  The code sorts by `(x['year'], x['week'])` where
`x['week']` is the unpadded string `f"W{week}"`, so within 2025 the row of ISO
week 12 (`"W12"`) precedes the row of ISO week 5 (`"W5"`): 2025-03-17 lies in
ISO week 12 and 2025-01-30 in ISO week 5, yet the week-12 row is emitted
first. -/
theorem c7_weekly_rows_misordered :
    aggregate_weekly_tss
        [{ type := "Ride", date := "2025-03-17", tss := 50 },
         { type := "Run", date := "2025-01-30", tss := 30 }]
      = .ok [{ week := "W12", year := 2025, ride := 50, run := 0, row := 0, other := 0 },
             { week := "W5", year := 2025, ride := 0, run := 30, row := 0, other := 0 }] := by
  decide

/-- C8: a normalized tertiary (Concept2) activity's duration in seconds is the
raw `time` field (centiseconds) divided by 100 — both in
`process_concept2_activity` (which only produces an activity when `time ≠ 0`)
and in the connector's `standardize_workout`. -/
theorem c8_duration_is_time_div_100 :
    (∀ (w : CRec) (act : Activity), process_concept2_activity w = some act →
        act.duration = ((w.time.getD 0 : Int) : Rat) / 100)
      ∧ ∀ w : C2Raw, (standardize_workout w).duration = ((w.time.getD 0 : Int) : Rat) / 100 := by
  constructor
  · intro w act h
    rw [process_concept2_activity] at h
    by_cases h0 : w.time.getD 0 = 0
    · rw [if_pos h0] at h
      exact absurd h (by simp)
    · rw [if_neg h0] at h
      cases Option.some_inj.mp h
      rfl
  · intro w
    rfl

/-- C8 witness: `time = 12000` normalizes to `duration = 120` seconds. -/
theorem c8_process_cw12000 : process_concept2_activity cw12000 = some c8act := by
  rw [process_concept2_activity, cw12000, c8act]
  norm_num [strTruthy]
  exact ⟨rfl, rfl⟩

/-- C8 witness: `time = 12000` normalizes to `duration = 120` seconds. -/
theorem c8_witness :
    process_concept2_activity cw12000 = some c8act ∧ c8act.duration = 120 :=
  ⟨c8_process_cw12000, by
    have h := c8_duration_is_time_div_100.1 cw12000 c8act c8_process_cw12000
    rw [h]
    norm_num [cw12000]⟩

/-- C9 (modelled from the spec; the aggregator is not under `src/`): the
critical-power model returns `CP = (P1*t1 - P2*t2)/(t1 - t2)` and
`W' = (P1-P2)*t1*t2/(t2-t1)` for `t1 = 300`, `t2 = 1200`; for `P1 = 300` and
`P2 = 250` this is `CP = 700/3 ≈ 233.3` and `W' = 20000`, and the result is
empty when either sample is zero. -/
theorem c9_critical_power :
    critical_power_model 300 250 = some (700 / 3, 20000)
      ∧ (∀ p20 : Rat, critical_power_model 0 p20 = none)
      ∧ (∀ p5 : Rat, critical_power_model p5 0 = none)
      ∧ ∀ p5 p20 : Rat, p5 ≠ 0 → p20 ≠ 0 →
          critical_power_model p5 p20
            = some ((p5 * 300 - p20 * 1200) / (300 - 1200),
                    (p5 - p20) * 300 * 1200 / (1200 - 300)) := by
  refine ⟨by norm_num [critical_power_model], fun p20 => by simp [critical_power_model],
    fun p5 => by simp [critical_power_model], fun p5 p20 h5 h20 => ?_⟩
  rw [critical_power_model, if_neg (by tauto)]

/-- C9 witness: the closed form evaluated at the spec's sample powers. -/
theorem c9_witness :
    critical_power_model 300 250
      = some (((300 : Rat) * 300 - 250 * 1200) / (300 - 1200),
              ((300 : Rat) - 250) * 300 * 1200 / (1200 - 300)) :=
  c9_critical_power.2.2.2 300 250 (by norm_num) (by norm_num)

/-- C10: `deduplicate` keeps exactly the first record bearing each distinct
stringified key value: it satisfies the first-occurrence recursion (a kept head
suppresses every later record with the same key), its output is a sublist of
the input (relative order preserved), and no two output records share a key
value.  `keyOf` stands for `lambda item: str(item.get(key, ''))` for the
chosen key name. -/
theorem c10_deduplicate_first_occurrence :
    (∀ (α : Type) (keyOf : α → String), deduplicate ([] : List α) keyOf = [])
      ∧ (∀ (α : Type) (keyOf : α → String) (x : α) (l : List α),
          deduplicate (x :: l) keyOf
            = x :: deduplicate (l.filter fun y => !(keyOf y == keyOf x)) keyOf)
      ∧ (∀ (α : Type) (keyOf : α → String) (items : List α),
          (deduplicate items keyOf).Sublist items)
      ∧ ∀ (α : Type) (keyOf : α → String) (items : List α),
          (deduplicate items keyOf).Pairwise fun x y => keyOf x ≠ keyOf y := by
  refine ⟨fun α keyOf => rfl, fun α keyOf x l => ?_,
    fun α keyOf items => dedupGo_sublist keyOf items [],
    fun α keyOf items => dedupGo_pairwise keyOf items []⟩
  show dedupGo keyOf [] (x :: l) = _
  rw [dedupGo, if_neg (by simp)]
  exact congrArg (List.cons x) (dedupGo_filter keyOf l (keyOf x) [])

theorem heatmap_cell_spec (today : Int) (activities : List Activity) (days : Nat) :
    ∀ c ∈ build_heatmap today activities days,
      c.tss = ((activities.filter fun a =>
          (a.date != "") && (a.date == c.date)).map Activity.tss).sum
        ∧ c.level = levelOf c.tss := by
  intro c hc
  rw [build_heatmap] at hc
  simp only [List.mem_map, List.mem_reverse, List.mem_range] at hc
  obtain ⟨i, hi, rfl⟩ := hc
  constructor
  · rw [show (activities.foldl
        (fun f a => if a.date = "" then f else fun x => if x = a.date then f a.date + a.tss else f x)
        (fun _ => 0)) (dateStr (today - (i : Int)))
      = _ from heatmap_fold_eq activities (fun _ => 0) (dateStr (today - (i : Int)))]
    simp
  · rfl

/-- C6: every heatmap cell's `tss` is the summed TSS of the activities dated
on that cell's day, and its `level` is the highest threshold strictly exceeded
by that sum (0 at `tss = 0`, 1 above 0, 2 above 40, 3 above 80, 4 above 120, 5
above 180); in particular a summed TSS of exactly 40 gives level 1 and 41
gives level 2 (see the witness). -/
theorem c6_heatmap_levels (today : Int) (activities : List Activity) (days : Nat) :
    ∀ c ∈ build_heatmap today activities days,
      c.tss = ((activities.filter fun a =>
          (a.date != "") && (a.date == c.date)).map Activity.tss).sum
        ∧ c.level = levelOf c.tss :=
  heatmap_cell_spec today activities days

/-- C6 witness: a day summing to TSS 40 gets level 1, a day summing to 41 gets
level 2 (the memberships pin the produced cells to levels 1 and 2). -/
theorem c6_witness :
    ((⟨dateStr 0, 1, 40⟩ : Cell) ∈ build_heatmap 0 [{ date := dateStr 0, tss := 40 }] 1
      ∧ (⟨dateStr 0, 1, 40⟩ : Cell).tss
          = (([{ date := dateStr 0, tss := 40 }].filter fun (a : Activity) =>
              (a.date != "") && (a.date == (⟨dateStr 0, 1, 40⟩ : Cell).date)).map Activity.tss).sum
        ∧ (⟨dateStr 0, 1, 40⟩ : Cell).level = levelOf (⟨dateStr 0, 1, 40⟩ : Cell).tss)
    ∧ ((⟨dateStr 0, 2, 41⟩ : Cell) ∈ build_heatmap 0 [{ date := dateStr 0, tss := 41 }] 1
      ∧ (⟨dateStr 0, 2, 41⟩ : Cell).tss
          = (([{ date := dateStr 0, tss := 41 }].filter fun (a : Activity) =>
              (a.date != "") && (a.date == (⟨dateStr 0, 2, 41⟩ : Cell).date)).map Activity.tss).sum
        ∧ (⟨dateStr 0, 2, 41⟩ : Cell).level = levelOf (⟨dateStr 0, 2, 41⟩ : Cell).tss) := by
  have m1 : (⟨dateStr 0, 1, 40⟩ : Cell) ∈ build_heatmap 0 [{ date := dateStr 0, tss := 40 }] 1 := by
    decide
  have m2 : (⟨dateStr 0, 2, 41⟩ : Cell) ∈ build_heatmap 0 [{ date := dateStr 0, tss := 41 }] 1 := by
    decide
  exact ⟨⟨m1, c6_heatmap_levels 0 _ 1 _ m1⟩, ⟨m2, c6_heatmap_levels 0 _ 1 _ m2⟩⟩

/-- C5: for a positive day count, `build_heatmap` returns exactly `days`
cells; the `k`-th cell carries the date `today - (days - 1) + k`, so the cells
are one per calendar day of the trailing window in a complete contiguous
sequence; and a cell on a day with no matching activity has `tss = 0` and
`level = 0`. -/
theorem c5_heatmap_window (today : Int) (activities : List Activity) (days : Nat)
    (hpos : 0 < days) :
    (build_heatmap today activities days).length = days
      ∧ (∀ (k : Nat) (hk : k < (build_heatmap today activities days).length),
          ((build_heatmap today activities days).get ⟨k, hk⟩).date
            = dateStr (today - ((days : Int) - 1) + (k : Int)))
      ∧ ∀ c ∈ build_heatmap today activities days,
          (∀ a ∈ activities, a.date ≠ c.date) → c.tss = 0 ∧ c.level = 0 := by
  have hlen : (build_heatmap today activities days).length = days := by
    simp only [build_heatmap, List.length_map, List.length_reverse, List.length_range]
  refine ⟨hlen, ?_, ?_⟩
  · intro k hk
    have hk2 : k < days := hlen ▸ hk
    rw [List.get_eq_getElem]
    simp only [build_heatmap, List.getElem_map, List.getElem_reverse, List.length_reverse,
      List.length_range, List.getElem_range]
    congr 1
    omega
  · intro c hc hnone
    have hspec := heatmap_cell_spec today activities days c hc
    have hfilter : (activities.filter fun a => (a.date != "") && (a.date == c.date)) = [] := by
      rw [List.filter_eq_nil_iff]
      intro a ha
      simp [hnone a ha]
    have htss : c.tss = 0 := by rw [hspec.1, hfilter]; rfl
    refine ⟨htss, ?_⟩
    rw [hspec.2, htss]
    rfl

/-- C5 witness: a three-day window ending on day 0, with no activities. -/
theorem c5_witness :
    (build_heatmap 0 [] 3).length = 3
      ∧ (∀ (k : Nat) (hk : k < (build_heatmap 0 [] 3).length),
          ((build_heatmap 0 [] 3).get ⟨k, hk⟩).date
            = dateStr (0 - ((3 : Int) - 1) + (k : Int)))
      ∧ ∀ c ∈ build_heatmap 0 [] 3,
          (∀ a ∈ ([] : List Activity), a.date ≠ c.date) → c.tss = 0 ∧ c.level = 0 :=
  c5_heatmap_window 0 [] 3 (by decide)

/-- The `strava_id` of a normalized Concept2 activity is always `None`. -/
theorem process_concept2_strava_id {w : CRec} {act : Activity}
    (h : process_concept2_activity w = some act) : act.strava_id = none := by
  rw [process_concept2_activity] at h
  by_cases h0 : w.time.getD 0 = 0
  · rw [if_pos h0] at h
    exact absurd h (by simp)
  · rw [if_neg h0] at h
    cases Option.some_inj.mp h
    rfl

/-- C4: the merged sequence is sorted by `date` descending (lexicographic
string order); records with equal dates keep their relative insertion order —
`processedAll` lists them primary first, then secondary, then tertiary — and
the records with an empty date form the trailing segment of the output. -/
theorem c4_merge_sorted (A : List IRec) (B : List SRec) (C : List CRec)
    (out : List Activity) (h : merge_activities A B C = .ok out) :
    out.Pairwise (fun x y => y.date ≤ x.date)
      ∧ (∀ d : String, out.filter (fun x => x.date == d)
          = (processedAll A B C).filter (fun x => x.date == d))
      ∧ out = out.filter (fun x => !(x.date == "")) ++ out.filter (fun x => x.date == "") := by
  obtain ⟨ho, -⟩ := merge_ok_eq h
  subst ho
  haveI : IsTotal Activity dateGe := ⟨fun x y => by
    rcases le_total y.date x.date with hle | hle
    · exact Or.inl (dateGe_iff.mpr hle)
    · exact Or.inr (dateGe_iff.mpr hle)⟩
  haveI : IsTrans Activity dateGe := ⟨fun a b c h1 h2 =>
    dateGe_iff.mpr (le_trans (dateGe_iff.mp h2) (dateGe_iff.mp h1))⟩
  have hp : (List.insertionSort dateGe (processedAll A B C)).Pairwise dateGe :=
    List.sorted_insertionSort dateGe (processedAll A B C)
  refine ⟨hp.imp (fun hxy => dateGe_iff.mp hxy), ?_, pairwise_empty_date_suffix hp⟩
  intro d
  exact filter_date_insertionSort d (processedAll A B C)

/-- C4 witness: a one-record merge, where the conclusion is immediate. -/
theorem c4_witness :
    [process_intervals_activity cI4].Pairwise (fun x y => y.date ≤ x.date)
      ∧ (∀ d : String, [process_intervals_activity cI4].filter (fun x => x.date == d)
          = (processedAll [cI4] [] []).filter (fun x => x.date == d))
      ∧ [process_intervals_activity cI4]
          = [process_intervals_activity cI4].filter (fun x => !(x.date == ""))
            ++ [process_intervals_activity cI4].filter (fun x => x.date == "") :=
  c4_merge_sorted [cI4] [] [] [process_intervals_activity cI4] (by rfl)

/-- C3 (amended): on a successful merge the output length is at most
`|A| + |B| + |C|`, and it equals the sum iff the primary list contains no stub
records and no secondary record's id lies in the covered set collected from
the primary list.  (The original "equality iff no cross-source duplicate ids"
is refuted by `c3_counterexample`: a stub carrying no cross-source id already
makes the inequality strict.) -/
theorem c3_merge_length (A : List IRec) (B : List SRec) (C : List CRec)
    (out : List Activity) (h : merge_activities A B C = .ok out) :
    out.length ≤ A.length + B.length + C.length
      ∧ (out.length = A.length + B.length + C.length
          ↔ (∀ a ∈ A, isStub a = false)
            ∧ ∀ b ∈ B, ((intervalsPass A).2).contains (b.id.getD "") = false) := by
  obtain ⟨ho, hall⟩ := merge_ok_eq h
  subst ho
  rw [(List.perm_insertionSort dateGe (processedAll A B C)).length_eq]
  have hpa : (processedAll A B C).length
      = (A.filter fun a => !isStub a).length
        + (B.filter fun b => !((intervalsPass A).2).contains (b.id.getD "")).length
        + C.length := by
    rw [processedAll, List.length_append, List.length_append, intervalsPass_fst, stravaPass_eq,
      List.length_map, List.length_map, reduceOption_length_of_all _ hall, List.length_map]
  rw [hpa]
  have hA := List.length_filter_le (fun a => !isStub a) A
  have hB := List.length_filter_le (fun b => !((intervalsPass A).2).contains (b.id.getD "")) B
  refine ⟨by omega, ?_, ?_⟩
  · intro he
    have heA : (A.filter fun a => !isStub a).length = A.length := by omega
    have heB : (B.filter fun b => !((intervalsPass A).2).contains (b.id.getD "")).length
        = B.length := by omega
    have hA2 : ∀ a ∈ A, (!isStub a) = true :=
      List.countP_eq_length.mp (by rw [List.countP_eq_length_filter]; exact heA)
    have hB2 : ∀ b ∈ B, (!((intervalsPass A).2).contains (b.id.getD "")) = true :=
      List.countP_eq_length.mp (by rw [List.countP_eq_length_filter]; exact heB)
    exact ⟨fun a ha => by simpa using hA2 a ha, fun b hb => by simpa using hB2 b hb⟩
  · rintro ⟨hA2, hB2⟩
    have hfa : (A.filter fun a => !isStub a) = A :=
      List.filter_eq_self.mpr fun a ha => by rw [hA2 a ha]; rfl
    have hfb : (B.filter fun b => !((intervalsPass A).2).contains (b.id.getD "")) = B :=
      List.filter_eq_self.mpr fun b hb => by rw [hB2 b hb]; rfl
    rw [hfa, hfb]

/-- C3 counterexample: a single stub primary record with no cross-source id.
The merge succeeds with an empty output, so the length (0) is strictly below
`|A| + |B| + |C| = 1` although no cross-source duplicate ids exist — the
claimed "equality iff no cross-source duplicates" is false here. -/
theorem c3_counterexample :
    merge_activities [cStubPlain] [] [] = .ok []
      ∧ crossDup [cStubPlain] [] = false
      ∧ ¬((List.length ([] : List Activity)
            = List.length [cStubPlain] + List.length ([] : List SRec)
              + List.length ([] : List CRec))
          ↔ crossDup [cStubPlain] [] = false) := by
  refine ⟨rfl, rfl, fun hiff => ?_⟩
  have h01 : (0 : Nat) = 1 := by simpa using hiff.mpr rfl
  exact absurd h01 (by decide)

/-- C3 witness: the amended statement at the stub-only input. -/
theorem c3_witness :
    List.length ([] : List Activity)
        ≤ List.length [cStubPlain] + List.length ([] : List SRec)
          + List.length ([] : List CRec)
      ∧ (List.length ([] : List Activity)
            = List.length [cStubPlain] + List.length ([] : List SRec)
              + List.length ([] : List CRec)
          ↔ (∀ a ∈ [cStubPlain], isStub a = false)
            ∧ ∀ b ∈ ([] : List SRec),
                ((intervalsPass [cStubPlain]).2).contains (b.id.getD "") = false) :=
  c3_merge_length [cStubPlain] [] [] [] (by rfl)

/-- C1 (amended): if a primary stub references the nonempty cross-source id
`X`, the merged output contains no secondary-derived and no stub-derived
activity for `X`; the activities for `X` are exactly those of the non-stub
primary records carrying `X`, so when at most one such record exists the
output holds at most one activity for `X`.  (The unconditional "at most one"
of the original claim is refuted by `c1_counterexample`, where two non-stub
primary records both carry `X`.) -/
theorem c1_stub_suppresses_secondary (A : List IRec) (B : List SRec) (C : List CRec)
    (X : String) (out : List Activity) (hX : X ≠ "")
    (hstub : ∃ a ∈ A, isStub a = true ∧ a.strava_id = some X)
    (hsec : ∃ b ∈ B, b.id.getD "" = X)
    (h : merge_activities A B C = .ok out)
    (hone : (A.filter fun a => !isStub a && a.strava_id == some X).length ≤ 1) :
    (out.filter fun x => x.strava_id == some X).length ≤ 1 := by
  have hperm := (merge_ok_perm h).filter (fun x => x.strava_id == some X)
  rw [hperm.length_eq, processedAll, List.filter_append, List.filter_append,
    List.length_append, List.length_append]
  have hXcov : X ∈ (intervalsPass A).2 := by
    rw [intervalsPass_snd]
    obtain ⟨a, haA, hstub1, hsid⟩ := hstub
    refine List.mem_filterMap.mpr ⟨a, haA, ?_⟩
    rw [coveredKey, hsid]
    simp [strTruthy, hX]
  have h3 : (((C.map process_concept2_activity).reduceOption).filter
      fun x => x.strava_id == some X) = [] := by
    rw [List.filter_eq_nil_iff]
    intro x hx
    have hsome : some x ∈ C.map process_concept2_activity := List.reduceOption_mem_iff.mp hx
    obtain ⟨w, hw, hwx⟩ := List.mem_map.mp hsome
    rw [process_concept2_strava_id hwx]
    simp
  have h2 : ((stravaPass (intervalsPass A).2 B).filter
      fun x => x.strava_id == some X) = [] := by
    rw [stravaPass_eq, List.filter_map]
    have hin : ((B.filter fun b => !((intervalsPass A).2).contains (b.id.getD "")).filter
        ((fun x => x.strava_id == some X) ∘ process_strava_activity)) = [] := by
      rw [List.filter_eq_nil_iff]
      intro b hb
      obtain ⟨hbB, hbnc⟩ := List.mem_filter.mp hb
      simp only [Function.comp]
      rw [show (process_strava_activity b).strava_id = some (b.id.getD "") from rfl]
      intro hbeq
      have hbx : b.id.getD "" = X := by simpa using hbeq
      rw [hbx] at hbnc
      rw [Bool.not_eq_eq_eq_not, Bool.not_true] at hbnc
      have hcx : ((intervalsPass A).2).contains X = true := List.elem_iff.mpr hXcov
      rw [hcx] at hbnc
      exact Bool.noConfusion hbnc
    rw [hin, List.map_nil]
  have h1 : (((intervalsPass A).1).filter fun x => x.strava_id == some X).length ≤ 1 := by
    rw [intervalsPass_fst, List.filter_map, List.length_map, List.filter_filter]
    have hpred : ∀ a : IRec,
        (((fun x => x.strava_id == some X) ∘ process_intervals_activity) a && !isStub a)
          = (!isStub a && a.strava_id == some X) := by
      intro a
      simp only [Function.comp, process_intervals_strava_id]
      by_cases ht : strTruthy a.strava_id
      · rw [if_pos ht]
        exact Bool.and_comm _ _
      · rw [if_neg ht]
        have hz : (a.strava_id == some X) = false := by
          cases hsa : a.strava_id with
          | none => rfl
          | some s =>
            have hsX : s ≠ X := by
              intro hc
              subst hc
              rw [hsa] at ht
              exact ht (by simp [strTruthy, hX])
            simpa using hsX
        simp [hz]
    rw [show (fun a => ((fun x => x.strava_id == some X) ∘ process_intervals_activity) a
          && !isStub a) = (fun a => !isStub a && a.strava_id == some X) from funext hpred]
    exact hone
  rw [h2, h3]
  simpa using h1

/-- C1 counterexample: the primary list holds a stub referencing `"X"` and two
real records also carrying `"X"`; the secondary record with id `"X"` is
suppressed, but the output still holds two activities for `"X"`, refuting the
unconditional "at most one". -/
theorem c1_counterexample :
    isStub cStub = true ∧ cStub.strava_id = some "X"
      ∧ cSecX.id.getD "" = "X"
      ∧ (merge_activities [cStub, cReal1, cReal2] [cSecX] []).map
          (fun out => (out.filter fun x => x.strava_id == some "X").length) = .ok 2 := by
  exact ⟨rfl, rfl, rfl, rfl⟩

/-- C1 witness: one stub and one real record for `"X"`, secondary suppressed,
one activity for `"X"` in the output. -/
theorem c1_witness :
    (([process_intervals_activity cReal1].filter fun x => x.strava_id == some "X").length ≤ 1) :=
  c1_stub_suppresses_secondary [cStub, cReal1] [cSecX] [] "X"
    [process_intervals_activity cReal1]
    (by decide)
    ⟨cStub, by simp, by decide, rfl⟩
    ⟨cSecX, by simp, rfl⟩
    (by rfl)
    (by decide)

end FitnessDashboard
